import Mathlib

/-!
# Verification of the Swipe-Brick-Breaker core against its specification

Shallow embedding of the game core (`src/game/Vector.ts`, `src/game/Physics.ts`,
`src/game/Entities.ts`, `src/game/Constants.ts`, `src/game/Engine.ts`) in Lean 4.

Modelling conventions:
* JavaScript `number` is modelled by `ℝ` for geometry (positions, velocities,
  time deltas) because the source computes square roots; counters, hit points
  and scores are integers in the source's actual use and are modelled by
  `ℕ` / `ℤ`.
* Heap mutation is modelled by explicit state passing.  Aliased references
  (the `activeBalls` sub-array captured once per tick in
  `PhysicsSystem.update`) are modelled by lists of indices into the ball list.
* Nullable callbacks (`onCollision`, `onGameOver`, `onMetricUpdate`,
  `onLongTurn`) are modelled by event logs appended to the state; the Engine
  always installs them, so every invocation is logged.
* `Math.random()` draws inside `Engine.addBlockRow` are passed in explicitly
  as a per-column record of draw values; `Date.now()` is passed as a `ℕ`.
* Rendering, audio, particles and the other visual-effect state
  (`dyingBlocks`, `floatingTexts`, combo/flash displays) are out of the
  specified core and are not part of the modelled state.
-/

namespace SBB

noncomputable section

/-- 2D vector, `src/game/types.ts` `Vector`. -/
structure Vec where
  x : ℝ
  y : ℝ

instance : Inhabited Vec := ⟨⟨0, 0⟩⟩

/-! ## Vector math — `src/game/Vector.ts` (`Vec2`) -/

namespace Vec2

/-- `Vec2.add`. -/
def add (v1 v2 : Vec) : Vec := ⟨v1.x + v2.x, v1.y + v2.y⟩

/-- `Vec2.sub`. -/
def sub (v1 v2 : Vec) : Vec := ⟨v1.x - v2.x, v1.y - v2.y⟩

/-- `Vec2.mul` (scalar multiply). -/
def mul (v : Vec) (s : ℝ) : Vec := ⟨v.x * s, v.y * s⟩

/-- `Vec2.dot`. -/
def dot (v1 v2 : Vec) : ℝ := v1.x * v2.x + v1.y * v2.y

/-- `Vec2.mag`: `Math.sqrt(v.x*v.x + v.y*v.y)`. -/
def mag (v : Vec) : ℝ := Real.sqrt (v.x * v.x + v.y * v.y)

/-- `Vec2.normalize`: returns `(0,0)` when the magnitude is `0` (the source
also tests `isNaN(m)`, which is unrepresentable in exact real arithmetic:
`Real.sqrt` of a real is always a real, so that disjunct is vacuous here),
otherwise divides componentwise by the magnitude. -/
def normalize (v : Vec) : Vec :=
  let m := mag v
  if m = 0 then ⟨0, 0⟩ else ⟨v.x / m, v.y / m⟩

/-- `Vec2.dist`. -/
def dist (v1 v2 : Vec) : ℝ :=
  Real.sqrt ((v1.x - v2.x) * (v1.x - v2.x) + (v1.y - v2.y) * (v1.y - v2.y))

/-- `Vec2.reflect`: `r = d - 2 (d · n) n`. -/
def reflect (v normal : Vec) : Vec :=
  sub v (mul normal (2 * dot v normal))

end Vec2

/-! ## Constants — `src/game/Constants.ts` -/

namespace CONSTANTS

/-- `CONSTANTS.BALL_RADIUS`. -/
def BALL_RADIUS : ℝ := 6

/-- `CONSTANTS.BALL_SPEED` (pixels per second). -/
def BALL_SPEED : ℝ := 800

/-- `CONSTANTS.BLOCK_GAP`. -/
def BLOCK_GAP : ℝ := 4

/-- `CONSTANTS.COLS`. -/
def COLS : ℕ := 7

/-- `CONSTANTS.ITEM_RADIUS`. -/
def ITEM_RADIUS : ℝ := 12

/-- `CONSTANTS.INITIAL_BALLS`. -/
def INITIAL_BALLS : ℕ := 3

end CONSTANTS

/-! ## Entity model — `src/game/types.ts`, `src/game/Entities.ts` -/

/-- `GamePhase` from `src/game/types.ts`. -/
inductive GamePhase where
  | AIMING
  | SHOOTING
  | RETURNING
  | GAME_OVER
deriving DecidableEq, Repr

/-- Block shape (`Block.type` in `src/game/types.ts`). -/
inductive Shape where
  | SQUARE
  | TRIANGLE_TL
  | TRIANGLE_TR
  | TRIANGLE_BL
  | TRIANGLE_BR
  | DIAMOND
  | CIRCLE
deriving DecidableEq, Repr

/-- Block gimmick (`Block.gimmick` in `src/game/types.ts`). -/
inductive Gimmick where
  | NONE
  | EXPLOSIVE
  | GOLD
  | POISON
deriving DecidableEq, Repr

/-- Collision event kind (`'HIT' | 'DESTROY'` in `PhysicsSystem.onCollision`). -/
inductive EvKind where
  | HIT
  | DESTROY
deriving DecidableEq, Repr

/-- A logged `onCollision` invocation: position, kind, color hint. -/
structure CEvent where
  pos : Vec
  kind : EvKind
  color : String

/-- `BallEntity` from `src/game/Entities.ts`. -/
structure Ball where
  id : ℕ
  position : Vec
  velocity : Vec
  isActive : Bool
  isReturning : Bool

instance : Inhabited Ball := ⟨⟨0, ⟨0, 0⟩, ⟨0, 0⟩, true, false⟩⟩

/-- `BlockEntity` from `src/game/Entities.ts`: grid cell, hit points, shape,
gimmick, plus the cached pixel bounds recomputed by `updatePosition`. -/
structure Block where
  id : String
  col : ℤ
  row : ℤ
  hp : ℤ
  maxHp : ℤ
  type : Shape
  gimmick : Gimmick
  x : ℝ
  y : ℝ
  width : ℝ
  height : ℝ

instance : Inhabited Block :=
  ⟨⟨"", 0, 0, 0, 0, Shape.SQUARE, Gimmick.NONE, 0, 0, 0, 0⟩⟩

/-- `BlockEntity` constructor: `maxHp` is fixed equal to the spawn `hp`;
cached bounds start at zero. -/
def BlockEntity.mk' (id : String) (col row : ℤ) (hp : ℤ) (type : Shape)
    (gimmick : Gimmick) : Block :=
  ⟨id, col, row, hp, hp, type, gimmick, 0, 0, 0, 0⟩

/-- `BlockEntity.updatePosition`. -/
def Block.updatePosition (b : Block) (blockWidth blockHeight startX startY : ℝ) :
    Block :=
  { b with
    width := blockWidth
    height := blockHeight
    x := startX + (b.col : ℝ) * (blockWidth + CONSTANTS.BLOCK_GAP)
    y := startY + (b.row : ℝ) * (blockHeight + CONSTANTS.BLOCK_GAP) }

/-- `ItemEntity` from `src/game/Entities.ts`. -/
structure Item where
  id : String
  col : ℤ
  row : ℤ
  collected : Bool
  x : ℝ
  y : ℝ
  radius : ℝ

instance : Inhabited Item := ⟨⟨"", 0, 0, false, 0, 0, CONSTANTS.ITEM_RADIUS⟩⟩

/-- `ItemEntity` constructor. -/
def ItemEntity.mk' (id : String) (col row : ℤ) : Item :=
  ⟨id, col, row, false, 0, 0, CONSTANTS.ITEM_RADIUS⟩

/-- `ItemEntity.updatePosition`: centered in its grid cell. -/
def Item.updatePosition (it : Item) (blockWidth blockHeight startX startY : ℝ) :
    Item :=
  let cellX := startX + (it.col : ℝ) * (blockWidth + CONSTANTS.BLOCK_GAP)
  let cellY := startY + (it.row : ℝ) * (blockHeight + CONSTANTS.BLOCK_GAP)
  { it with x := cellX + blockWidth / 2, y := cellY + blockHeight / 2 }

/-! ## Collision module — `PhysicsSystem.checkCollision` and helpers -/

/-- Result of a narrow-phase test: contact normal and penetration depth. -/
structure Collision where
  normal : Vec
  depth : ℝ

/-- `PhysicsSystem.checkAABBCollision`: axis-aligned box vs circle by the
clamped-point method; a ball center exactly on the clamped point (inside the
box) falls back to a normal from the box center, or `(0,-1)` if exactly
centered. -/
def checkAABBCollision (ballPos : Vec) (b : Block) : Option Collision :=
  let closestX := max b.x (min ballPos.x (b.x + b.width))
  let closestY := max b.y (min ballPos.y (b.y + b.height))
  let distanceX := ballPos.x - closestX
  let distanceY := ballPos.y - closestY
  let distanceSquared := distanceX * distanceX + distanceY * distanceY
  let radiusSq := CONSTANTS.BALL_RADIUS * CONSTANTS.BALL_RADIUS
  if distanceSquared < radiusSq then
    let distance := Real.sqrt distanceSquared
    let depth := CONSTANTS.BALL_RADIUS - distance
    let normal :=
      if distance = 0 then
        let cx := b.x + b.width / 2
        let cy := b.y + b.height / 2
        let n := Vec2.normalize ⟨ballPos.x - cx, ballPos.y - cy⟩
        if n.x = 0 ∧ n.y = 0 then (⟨0, -1⟩ : Vec) else n
      else ⟨distanceX / distance, distanceY / distance⟩
    some ⟨normal, depth⟩
  else none

/-- One iteration of the `DIAMOND` edge loop: distance from the ball to the
closest point of the segment `p1 p2`, and the corresponding normal candidate
(`(0,-1)` fallback when the ball sits exactly on the segment). -/
def diamondEdge (ballPos p1 p2 : Vec) : ℝ × Vec :=
  let edge := Vec2.sub p2 p1
  let toBall := Vec2.sub ballPos p1
  let edgeLenSq := Vec2.dot edge edge
  let t := if edgeLenSq > 0 then
      max 0 (min 1 (Vec2.dot toBall edge / edgeLenSq)) else 0
  let closest := Vec2.add p1 (Vec2.mul edge t)
  let diff := Vec2.sub ballPos closest
  let d := Vec2.mag diff
  (d, if d > 0 then Vec2.normalize diff else ⟨0, -1⟩)

/-- The `DIAMOND` branch of `checkCollision`.  The source tracks
`closestDist` starting from `Infinity`; exact reals have no infinity, so the
"no edge scanned yet" state is an `Option` (`none` plays `Infinity`, which
every first comparison beats). -/
def checkDiamondCollision (ballPos : Vec) (b : Block) : Option Collision :=
  let cx := b.x + b.width / 2
  let cy := b.y + b.height / 2
  let hw := (b.width - 4) / 2
  let hh := (b.height - 4) / 2
  let vTop : Vec := ⟨cx, cy - hh⟩
  let vRight : Vec := ⟨cx + hw, cy⟩
  let vBottom : Vec := ⟨cx, cy + hh⟩
  let vLeft : Vec := ⟨cx - hw, cy⟩
  let edges := [(vTop, vRight), (vRight, vBottom), (vBottom, vLeft), (vLeft, vTop)]
  let best := edges.foldl
    (fun (acc : Option (ℝ × Vec)) e =>
      let cand := diamondEdge ballPos e.1 e.2
      match acc with
      | none => some cand
      | some a => if cand.1 < a.1 then some cand else acc)
    none
  match best with
  | none => none
  | some (closestDist, closestNormal) =>
    if closestDist < CONSTANTS.BALL_RADIUS then
      some ⟨closestNormal, CONSTANTS.BALL_RADIUS - closestDist⟩
    else none

/-- `PhysicsSystem.checkTriangleCollision`: hypotenuse segment-vs-circle test
first; otherwise accept the AABB hit only when the ball is on the solid side
of the hypotenuse plane. -/
def checkTriangleCollision (ballPos : Vec) (b : Block)
    (aabbCollision : Collision) : Option Collision :=
  let x := b.x
  let y := b.y
  let w := b.width
  let h := b.height
  let data : Option (Vec × Vec × Vec) :=
    match b.type with
    | Shape.TRIANGLE_TL => some (⟨1, 1⟩, ⟨x, y + h⟩, ⟨x + w, y⟩)
    | Shape.TRIANGLE_TR => some (⟨-1, 1⟩, ⟨x, y⟩, ⟨x + w, y + h⟩)
    | Shape.TRIANGLE_BL => some (⟨1, -1⟩, ⟨x, y⟩, ⟨x + w, y + h⟩)
    | Shape.TRIANGLE_BR => some (⟨-1, -1⟩, ⟨x, y + h⟩, ⟨x + w, y⟩)
    | _ => none
  match data with
  | none => some aabbCollision
  | some (normal0, p1, p2) =>
    let normal := Vec2.normalize normal0
    let v := Vec2.sub p2 p1
    let wVec := Vec2.sub ballPos p1
    let segmentLenSq := Vec2.dot v v
    let t := if segmentLenSq > 0 then
        max 0 (min 1 (Vec2.dot wVec v / segmentLenSq)) else 0
    let closest := Vec2.add p1 (Vec2.mul v t)
    let distVec := Vec2.sub ballPos closest
    let d := Vec2.mag distVec
    if d < CONSTANTS.BALL_RADIUS then
      some ⟨Vec2.normalize distVec, CONSTANTS.BALL_RADIUS - d⟩
    else
      let center : Vec := ⟨b.x + b.width / 2, b.y + b.height / 2⟩
      let rel := Vec2.sub ballPos center
      let proj := Vec2.dot rel normal
      if proj > 0 then none else some aabbCollision

/-- `PhysicsSystem.checkCollision`: per-shape dispatch. -/
def checkCollision (ballPos : Vec) (b : Block) : Option Collision :=
  match b.type with
  | Shape.CIRCLE =>
    let cx := b.x + b.width / 2
    let cy := b.y + b.height / 2
    let blockRadius := min b.width b.height / 2 - 2
    let dx := ballPos.x - cx
    let dy := ballPos.y - cy
    let d := Real.sqrt (dx * dx + dy * dy)
    let combinedRadius := CONSTANTS.BALL_RADIUS + blockRadius
    if d < combinedRadius then
      some ⟨if d > 0 then ⟨dx / d, dy / d⟩ else ⟨0, -1⟩, combinedRadius - d⟩
    else none
  | Shape.DIAMOND => checkDiamondCollision ballPos b
  | Shape.SQUARE => checkAABBCollision ballPos b
  | _ =>
    match checkAABBCollision ballPos b with
    | none => none
    | some aabb => checkTriangleCollision ballPos b aabb

/-! ## Physics step — `PhysicsSystem.update` / `PhysicsSystem.stepBall` -/

/-- Outcome of the block loop of `stepBall` (step 4): possibly pushed-out
position, possibly reflected velocity, updated block list, emitted collision
events, and whether the POISON early `return` was taken. -/
structure BlockPassOut where
  pos : Vec
  vel : Vec
  blocks : List Block
  events : List CEvent
  poisoned : Bool

/-- The block loop of `stepBall`: walk the blocks in container order, skip
dead blocks (`hp <= 0`), resolve the **first** overlap found and stop.  For a
POISON block the ball dies: `hp -= 1`, one event (color hint `#a855f7`), and
the early `return` skips both the rest of the loop and the final
`ball.position = nextPos` write (so `pos` keeps the pre-pushout value but is
unused by the caller in that case).  Otherwise push out by `normal×depth`,
reflect the velocity, `hp -= 1`, emit one event, and `break`. -/
def blockPass (p v : Vec) : List Block → BlockPassOut
  | [] => ⟨p, v, [], [], false⟩
  | b :: rest =>
    if b.hp ≤ 0 then
      let r := blockPass p v rest
      { r with blocks := b :: r.blocks }
    else
      match checkCollision p b with
      | none =>
        let r := blockPass p v rest
        { r with blocks := b :: r.blocks }
      | some collision =>
        if b.gimmick = Gimmick.POISON then
          ⟨p, v, { b with hp := b.hp - 1 } :: rest,
            [⟨p, if b.hp - 1 ≤ 0 then EvKind.DESTROY else EvKind.HIT, "#a855f7"⟩],
            true⟩
        else
          let p' : Vec := ⟨p.x + collision.normal.x * collision.depth,
                           p.y + collision.normal.y * collision.depth⟩
          let v' := Vec2.reflect v collision.normal
          ⟨p', v', { b with hp := b.hp - 1 } :: rest,
            [⟨p', if b.hp - 1 ≤ 0 then EvKind.DESTROY else EvKind.HIT, ""⟩],
            false⟩

/-- Step 3 of `stepBall`: sensor test of one item against the predicted ball
center (squared distances, no velocity change). -/
def itemSensor (nextPos : Vec) (it : Item) : Item :=
  if it.collected then it
  else
    let dx := nextPos.x - it.x
    let dy := nextPos.y - it.y
    let distSq := dx * dx + dy * dy
    let combinedRadius := CONSTANTS.BALL_RADIUS + it.radius
    if distSq < combinedRadius * combinedRadius then
      { it with collected := true }
    else it

/-- Result of one `stepBall` call. -/
structure StepOut where
  ball : Ball
  blocks : List Block
  items : List Item
  events : List CEvent

/-- `PhysicsSystem.stepBall`: integrate, reflect/clamp against left, right and
top walls (bottom passes through), sensor-test items, then run the block
loop.  On a POISON hit the ball is deactivated and marked returning and the
position write is skipped; otherwise the (possibly pushed-out) position is
committed. -/
def stepBall (width : ℝ) (dt : ℝ) (ball : Ball) (blocks : List Block)
    (items : List Item) : StepOut :=
  let np0 := Vec2.add ball.position (Vec2.mul ball.velocity dt)
  let s1 : Vec × Vec :=
    if np0.x - CONSTANTS.BALL_RADIUS < 0 then
      (⟨CONSTANTS.BALL_RADIUS, np0.y⟩, ⟨-ball.velocity.x, ball.velocity.y⟩)
    else (np0, ball.velocity)
  let s2 : Vec × Vec :=
    if s1.1.x + CONSTANTS.BALL_RADIUS > width then
      (⟨width - CONSTANTS.BALL_RADIUS, s1.1.y⟩, ⟨-s1.2.x, s1.2.y⟩)
    else s1
  let s3 : Vec × Vec :=
    if s2.1.y - CONSTANTS.BALL_RADIUS < 0 then
      (⟨s2.1.x, CONSTANTS.BALL_RADIUS⟩, ⟨s2.2.x, -s2.2.y⟩)
    else s2
  let nextPos := s3.1
  let vel := s3.2
  let items' := items.map (itemSensor nextPos)
  let r := blockPass nextPos vel blocks
  let ball' :=
    if r.poisoned then
      { ball with isActive := false, isReturning := true, velocity := r.vel }
    else
      { ball with position := r.pos, velocity := r.vel }
  ⟨ball', r.blocks, items', r.events⟩

/-- The evolving state threaded through the sub-step loops of
`PhysicsSystem.update`. -/
structure PhysOut where
  balls : List Ball
  blocks : List Block
  items : List Item
  events : List CEvent

/-- Sub-step count of `PhysicsSystem.update`:
`Math.ceil((maxSpeed * dt) / (BALL_RADIUS * 0.5))`. -/
def physicsSteps (dt : ℝ) : ℕ :=
  (⌈CONSTANTS.BALL_SPEED * dt / (CONSTANTS.BALL_RADIUS * 0.5)⌉).toNat

/-- One sub-step: step every ball captured by the `activeBalls` filter, in
order, threading block/item mutations.  The source keeps object references;
we keep indices into the ball list. -/
def substepPass (width subDt : ℝ) (activeIdx : List ℕ) (st : PhysOut) :
    PhysOut :=
  activeIdx.foldl
    (fun st i =>
      let b := st.balls.getD i default
      let r := stepBall width subDt b st.blocks st.items
      ⟨st.balls.set i r.ball, r.blocks, r.items, st.events ++ r.events⟩)
    st

/-- `PhysicsSystem.update`: filter the active, non-returning balls **once**,
divide `dt` evenly into `physicsSteps dt` sub-steps, and run every captured
ball through `stepBall` in each sub-step (the captured list is not
re-filtered between sub-steps, exactly as in the source). -/
def physicsUpdate (width : ℝ) (dt : ℝ) (balls : List Ball)
    (blocks : List Block) (items : List Item) : PhysOut :=
  let activeIdx := (List.range balls.length).filter
    (fun i => (balls.getD i default).isActive ∧
      ¬(balls.getD i default).isReturning)
  let steps := physicsSteps dt
  let subDt := dt / (steps : ℝ)
  (List.range steps).foldl
    (fun st _ => substepPass width subDt activeIdx st)
    ⟨balls, blocks, items, []⟩

/-! ## Trajectory predictor — `PhysicsSystem.predictTrajectory` -/

/-- What the nearest forward intersection of the ray march hit. -/
inductive HitType where
  | WALL
  | BLOCK
deriving DecidableEq, Repr

/-- Ray–slab interval for one axis of the expanded block bounds, `none` when
the ray direction component is zero (the source leaves that axis's
`tmin`/`tmax` at `-Infinity`/`Infinity`). -/
def slabInterval (origin dir lo hi : ℝ) : Option (ℝ × ℝ) :=
  if dir ≠ 0 then
    let t1 := (lo - origin) / dir
    let t2 := (hi - origin) / dir
    some (min t1 t2, max t1 t2)
  else none

/-- The candidate-scan of one `predictTrajectory` iteration: nearest forward
hit among the right/left wall, the top wall, and the radius-expanded block
bounding boxes.  The source's `shortestDist` starts from `Infinity`; `none`
models the "nothing found yet" state, which every first candidate beats. -/
def scanCandidates (width : ℝ) (blocks : List Block) (currentPos currentDir : Vec) :
    Option (ℝ × Vec × HitType) :=
  let acc0 : Option (ℝ × Vec × HitType) :=
    if currentDir.x > 0 then
      some ((width - CONSTANTS.BALL_RADIUS - currentPos.x) / currentDir.x,
        ⟨-1, 0⟩, HitType.WALL)
    else if currentDir.x < 0 then
      some ((CONSTANTS.BALL_RADIUS - currentPos.x) / currentDir.x,
        ⟨1, 0⟩, HitType.WALL)
    else none
  let acc1 : Option (ℝ × Vec × HitType) :=
    if currentDir.y < 0 then
      let d := (CONSTANTS.BALL_RADIUS - currentPos.y) / currentDir.y
      match acc0 with
      | none => some (d, ⟨0, 1⟩, HitType.WALL)
      | some a => if d < a.1 then some (d, ⟨0, 1⟩, HitType.WALL) else acc0
    else acc0
  blocks.foldl
    (fun (acc : Option (ℝ × Vec × HitType)) (b : Block) =>
      if b.hp ≤ 0 then acc
      else
        let bx := b.x - CONSTANTS.BALL_RADIUS
        let by' := b.y - CONSTANTS.BALL_RADIUS
        let bw := b.width + CONSTANTS.BALL_RADIUS * 2
        let bh := b.height + CONSTANTS.BALL_RADIUS * 2
        let sx := slabInterval currentPos.x currentDir.x bx (bx + bw)
        let sy := slabInterval currentPos.y currentDir.y by' (by' + bh)
        let bounds : Option (ℝ × ℝ) :=
          match sx, sy with
          | none, none => none
          | some i, none => some i
          | none, some i => some i
          | some i, some j => some (max i.1 j.1, min i.2 j.2)
        match bounds with
        | none => acc
        | some (tmin, tmax) =>
          match acc with
          | none =>
            if tmax ≥ tmin ∧ tmax ≥ 0 ∧ tmin > 0.1 then
              some (tmin, (⟨0, 0⟩ : Vec), HitType.BLOCK)
            else none
          | some a =>
            if tmax ≥ tmin ∧ tmax ≥ 0 ∧ tmin < a.1 ∧ tmin > 0.1 then
              some (tmin, (⟨0, 0⟩ : Vec), HitType.BLOCK)
            else some a)
    acc1

/-- The bounce loop of `predictTrajectory`; returns the points pushed after
the initial `startPos`. -/
def predictLoop (width : ℝ) (blocks : List Block) :
    ℕ → Vec → Vec → List Vec
  | 0, _, _ => []
  | n + 1, currentPos, currentDir =>
    match scanCandidates width blocks currentPos currentDir with
    | none => [Vec2.add currentPos (Vec2.mul currentDir 1000)]
    | some (shortestDist, normal, hitType) =>
      if shortestDist > 2000 then
        [Vec2.add currentPos (Vec2.mul currentDir 1000)]
      else
        let hitPos := Vec2.add currentPos (Vec2.mul currentDir shortestDist)
        match hitType with
        | HitType.BLOCK => [hitPos]
        | HitType.WALL =>
          let pos' := Vec2.add hitPos (Vec2.mul normal 0.1)
          let dir' := Vec2.reflect currentDir normal
          hitPos :: predictLoop width blocks n pos' dir'

/-- `PhysicsSystem.predictTrajectory`: read-only iterative ray march.  A
near-zero aim vector returns the single-point path `[startPos]`. -/
def predictTrajectory (width : ℝ) (startPos direction : Vec) (maxBounces : ℕ)
    (blocks : List Block) : List Vec :=
  let currentDir := Vec2.normalize direction
  if Vec2.mag direction < 0.001 then [startPos]
  else startPos :: predictLoop width blocks maxBounces startPos currentDir

/-! ## Turn state machine — `src/game/Engine.ts` -/

/-- The Engine state relevant to the specified core.  Callback invocations
(`onCollision`, `onMetricUpdate`, `onGameOver`, `onLongTurn`) are modelled as
event logs.  Rendering/particle/combo state is out of the core. -/
structure GameState where
  phase : GamePhase
  width : ℝ
  height : ℝ
  level : ℕ
  score : ℤ
  totalBalls : ℕ
  ballsReturned : ℕ
  launchPos : Vec
  balls : List Ball
  blocks : List Block
  items : List Item
  turnTimer : ℝ
  timeScale : ℝ
  launchPosUpdated : Bool
  nextLaunchPos : Option Vec
  collisionEvents : List CEvent
  metricEvents : List (ℤ × ℕ × ℕ)
  gameOverEvents : List ℤ
  longTurnEvents : List Bool

/-- `Engine.emitMetrics`: log `(score, level, totalBalls)`. -/
def emitMetrics (s : GameState) : GameState :=
  { s with metricEvents := s.metricEvents ++ [(s.score, s.level, s.totalBalls)] }

/-- `Engine.updateBlockLayout`: recompute every cached pixel bound from the
grid cell (`topPadding = 100`, square cells sized from the width). -/
def updateBlockLayout (s : GameState) : GameState :=
  let blockWidth := (s.width - ((CONSTANTS.COLS : ℝ) + 1) * CONSTANTS.BLOCK_GAP) /
    (CONSTANTS.COLS : ℝ)
  let blockHeight := blockWidth
  { s with
    blocks := s.blocks.map
      (fun b => b.updatePosition blockWidth blockHeight CONSTANTS.BLOCK_GAP 100)
    items := s.items.map
      (fun i => i.updatePosition blockWidth blockHeight CONSTANTS.BLOCK_GAP 100) }

/-- `Engine.moveBlocksDown`: shift every block and item down one grid row and
recompute the layout. -/
def moveBlocksDown (s : GameState) : GameState :=
  updateBlockLayout
    { s with
      blocks := s.blocks.map (fun b => { b with row := b.row + 1 })
      items := s.items.map (fun i => { i with row := i.row + 1 }) }

/-- The `Math.random()` draws consumed for one column of
`Engine.addBlockRow`, in source order: spawn roll, hp-tier roll, in-tier
multiplier, shape roll, triangle-orientation roll, gimmick roll.  Each is a
value in `[0,1)`. -/
structure Draws where
  rand : ℝ
  tier : ℝ
  mult : ℝ
  shape : ℝ
  tri : ℝ
  gimmick : ℝ

/-- The hp multiplier from the tier bands of `Engine.addBlockRow`. -/
def spawnMultiplier (d : Draws) : ℝ :=
  if d.tier < 0.40 then 0.1 + d.mult * 0.4
  else if d.tier < 0.80 then 0.7 + d.mult * 0.6
  else if d.tier < 0.95 then 1.5 + d.mult * 1.0
  else 3.0 + d.mult * 2.0

/-- The shape roll of `Engine.addBlockRow`.  `types[Math.floor(r*4)]` with
`r ∈ [0,1)` always indexes inside the 4-element array; `getD` supplies the
(unreachable for such draws) out-of-range default. -/
def spawnShape (d : Draws) : Shape :=
  if d.shape < 0.20 then
    [Shape.TRIANGLE_TL, Shape.TRIANGLE_TR, Shape.TRIANGLE_BL,
      Shape.TRIANGLE_BR].getD (⌊d.tri * 4⌋).toNat Shape.TRIANGLE_TL
  else if d.shape < 0.35 then Shape.DIAMOND
  else if d.shape < 0.50 then Shape.CIRCLE
  else Shape.SQUARE

/-- The gimmick roll of `Engine.addBlockRow`, only for `SQUARE` blocks. -/
def spawnGimmick (type : Shape) (d : Draws) : Gimmick :=
  if type = Shape.SQUARE then
    if d.gimmick < 0.05 then Gimmick.EXPLOSIVE
    else if d.gimmick < 0.08 then Gimmick.GOLD
    else if d.gimmick < 0.12 then Gimmick.POISON
    else Gimmick.NONE
  else Gimmick.NONE

/-- One column of `Engine.addBlockRow`: spawn an item (`rand < 0.1`), a
block (`rand < 0.6`, hp = `max 1 ⌊level * multiplier⌋`), or nothing; new
entities sit in grid row 1; ids interpolate `Date.now()` (the `now`
parameter) and the column. -/
def addCell (draws : ℕ → Draws) (now : ℕ) (acc : GameState) (col : ℕ) :
    GameState :=
  let d := draws col
  if d.rand < 0.1 then
    { acc with items := acc.items ++
        [ItemEntity.mk' (toString now ++ "-i-" ++ toString col) (col : ℤ) 1] }
  else if d.rand < 0.6 then
    let hp : ℤ := max 1 ⌊(acc.level : ℝ) * spawnMultiplier d⌋
    let type := spawnShape d
    let block := BlockEntity.mk' (toString now ++ "-" ++ toString col)
      (col : ℤ) 1 hp type (spawnGimmick type d)
    { acc with blocks := acc.blocks ++ [block] }
  else acc

/-- `Engine.addBlockRow`: roll every column independently, then recompute
the layout. -/
def addBlockRow (draws : ℕ → Draws) (now : ℕ) (s : GameState) : GameState :=
  updateBlockLayout ((List.range CONSTANTS.COLS).foldl (addCell draws now) s)

/-- `Engine.resetBalls`: `totalBalls` idle balls at the launch position. -/
def resetBalls (totalBalls : ℕ) (launchPos : Vec) : List Ball :=
  (List.range totalBalls).map (fun i => ⟨i, launchPos, ⟨0, 0⟩, false, false⟩)

/-- The body of the EXPLOSIVE neighbor loop: a still-live block within the
8-neighborhood of the destroyed block `bk` (`|Δcol| ≤ 1`, `|Δrow| ≤ 1`, not
the same cell) loses 2 hp. -/
def explodeDamage (bk other : Block) : Block :=
  if other.hp ≤ 0 then other
  else
    let colDiff := (other.col - bk.col).natAbs
    let rowDiff := (other.row - bk.row).natAbs
    if colDiff ≤ 1 ∧ rowDiff ≤ 1 ∧ 0 < colDiff + rowDiff then
      { other with hp := other.hp - 2 }
    else other

/-- One iteration of the EXPLOSIVE handler of `Engine.update`: for one
destroyed block, run the neighbor-damage loop over the whole block list. -/
def explodeOne (bk : Block) (blocks : List Block) : List Block :=
  if bk.gimmick = Gimmick.EXPLOSIVE then blocks.map (explodeDamage bk)
  else blocks

/-- One step of the score accumulation of `Engine.update`. -/
def scoreStep (acc : ℤ) (b : Block) : ℤ :=
  acc + (if b.gimmick = Gimmick.GOLD then 500 else 100)

/-- The score accumulation of `Engine.update`: 500 per GOLD-destroyed block,
100 per other destroyed block. -/
def scoreGainOf (destroyedBlocks : List Block) : ℤ :=
  destroyedBlocks.foldl scoreStep 0

/-- Accumulator of the returning-ball scan of `Engine.update`. -/
structure ReturnsOut where
  balls : List Ball
  ballsReturned : ℕ
  launchPosUpdated : Bool
  nextLaunchPos : Option Vec

/-- The returning-ball scan of `Engine.update`: skip balls already marked
returning, skip never-launched balls (zero velocity); an active ball at or
below the bottom boundary is deactivated, marked returning and counted (the
first such ball records the candidate next launch x); an inactive,
not-yet-returning ball is marked returning and counted. -/
def returnStep (height : ℝ) (acc : ReturnsOut) (ball : Ball) : ReturnsOut :=
  if ball.isReturning then { acc with balls := acc.balls ++ [ball] }
  else if ball.velocity.x = 0 ∧ ball.velocity.y = 0 then
    { acc with balls := acc.balls ++ [ball] }
  else if ball.isActive then
    if ball.position.y ≥ height - CONSTANTS.BALL_RADIUS then
      let acc' := { acc with
        balls := acc.balls ++ [{ ball with isActive := false, isReturning := true }]
        ballsReturned := acc.ballsReturned + 1 }
      if ¬acc.launchPosUpdated then
        { acc' with
          nextLaunchPos := some ⟨ball.position.x, height - 100⟩
          launchPosUpdated := true }
      else acc'
    else { acc with balls := acc.balls ++ [ball] }
  else
    { acc with
      balls := acc.balls ++ [{ ball with isReturning := true }]
      ballsReturned := acc.ballsReturned + 1 }

/-- The whole returning-ball forEach of `Engine.update`. -/
def processReturns (height : ℝ) (balls : List Ball) (returned0 : ℕ)
    (updated0 : Bool) (next0 : Option Vec) : ReturnsOut :=
  balls.foldl (returnStep height) ⟨[], returned0, updated0, next0⟩

/-- The head of `Engine.endTurn`: back to AIMING, commit the candidate
launch position, advance the level. -/
def endTurnPrep (s : GameState) : GameState :=
  { s with
    phase := GamePhase.AIMING
    launchPos := s.nextLaunchPos.getD s.launchPos
    launchPosUpdated := false
    nextLaunchPos := none
    level := s.level + 1 }

/-- `Engine.endTurn` up to (excluding) the game-over scan: the head above,
then shift the board down, spawn a new top row, reset the balls. -/
def endTurnBoard (draws : ℕ → Draws) (now : ℕ) (s : GameState) : GameState :=
  let s2 := addBlockRow draws now (moveBlocksDown (endTurnPrep s))
  { s2 with balls := resetBalls s2.totalBalls s2.launchPos }

/-- The game-over scan at the end of `Engine.endTurn`: for **each** block
whose bottom edge reaches within the 50px safety margin of the launch y, set
the phase to GAME_OVER and invoke `onGameOver(score)`. -/
def gameOverStep (threshold : ℝ) (acc : GameState) (b : Block) : GameState :=
  if b.y + b.height ≥ threshold then
    { acc with
      phase := GamePhase.GAME_OVER
      gameOverEvents := acc.gameOverEvents ++ [acc.score] }
  else acc

/-- Fold of `gameOverStep` over the blocks, threshold `launchPos.y - 50`. -/
def gameOverScan (s : GameState) : GameState :=
  s.blocks.foldl (gameOverStep (s.launchPos.y - 50)) s

/-- `Engine.endTurn`. -/
def endTurn (draws : ℕ → Draws) (now : ℕ) (s : GameState) : GameState :=
  emitMetrics (gameOverScan (endTurnBoard draws now s))

/-- The post-physics resolution of `Engine.update`, in source order: collect
destroyed blocks, apply EXPLOSIVE chains, score, purge, collect items, scan
returning balls, and end the turn once the returned counter reaches the ball
count. -/
def resolveTick (draws : ℕ → Draws) (now : ℕ) (s : GameState) : GameState :=
  let destroyedBlocks := s.blocks.filter (fun b => b.hp ≤ 0)
  let blocks1 := destroyedBlocks.foldl (fun acc bk => explodeOne bk acc) s.blocks
  let scoreGain := scoreGainOf destroyedBlocks
  let s1 : GameState := { s with blocks := blocks1.filter (fun b => 0 < b.hp) }
  let s2 : GameState := if 0 < scoreGain then
      emitMetrics { s1 with score := s1.score + scoreGain } else s1
  let s3 : GameState :=
    if 0 < s2.items.length then
      let collectedCount := (s2.items.filter (fun i => i.collected)).length
      let s2' : GameState := if 0 < collectedCount then
          emitMetrics { s2 with totalBalls := s2.totalBalls + collectedCount }
        else s2
      { s2' with items := s2'.items.filter (fun i => ¬i.collected) }
    else s2
  let r := processReturns s3.height s3.balls s3.ballsReturned
    s3.launchPosUpdated s3.nextLaunchPos
  let s4 : GameState := { s3 with
    balls := r.balls
    ballsReturned := r.ballsReturned
    launchPosUpdated := r.launchPosUpdated
    nextLaunchPos := r.nextLaunchPos }
  if s4.balls.length ≤ s4.ballsReturned then endTurn draws now s4 else s4

/-- `Engine.update` for one tick of clamped delta `dt`: in the SHOOTING or
RETURNING phase run the auto-speed-up timer, the (time-scaled) physics step
and the post-physics resolution; in any other phase the modelled core state
is untouched. -/
def engineUpdate (draws : ℕ → Draws) (now : ℕ) (dt : ℝ) (s : GameState) :
    GameState :=
  if s.phase = GamePhase.SHOOTING ∨ s.phase = GamePhase.RETURNING then
    let turnTimer := s.turnTimer + dt
    let step1 : ℝ × List Bool :=
      if turnTimer > 15 ∧ s.timeScale < 2 then (2, s.longTurnEvents ++ [true])
      else (s.timeScale, s.longTurnEvents)
    let timeScale := if turnTimer > 25 ∧ step1.1 < 3 then (3 : ℝ) else step1.1
    let scaledDt := dt * timeScale
    let ph := physicsUpdate s.width scaledDt s.balls s.blocks s.items
    resolveTick draws now
      { s with
        turnTimer := turnTimer
        timeScale := timeScale
        longTurnEvents := step1.2
        balls := ph.balls
        blocks := ph.blocks
        items := ph.items
        collisionEvents := s.collisionEvents ++ ph.events }
  else s

/-- The aim-preview query as issued by `Engine.draw`: ask the predictor for a
polyline and hand back the engine state, which the predictor never writes. -/
def queryTrajectory (s : GameState) (startPos direction : Vec)
    (maxBounces : ℕ) : List Vec × GameState :=
  (predictTrajectory s.width startPos direction maxBounces s.blocks, s)

/-- Verification infrastructure: two states agreeing on every component
except the block and item collections (used to track state plumbing through
the board-advance helpers, which only rewrite blocks and items). -/
def SameCore (a b : GameState) : Prop :=
  a.phase = b.phase ∧ a.width = b.width ∧ a.height = b.height ∧
  a.level = b.level ∧ a.score = b.score ∧ a.totalBalls = b.totalBalls ∧
  a.ballsReturned = b.ballsReturned ∧ a.launchPos = b.launchPos ∧
  a.turnTimer = b.turnTimer ∧ a.timeScale = b.timeScale ∧
  a.launchPosUpdated = b.launchPosUpdated ∧ a.nextLaunchPos = b.nextLaunchPos ∧
  a.collisionEvents = b.collisionEvents ∧ a.metricEvents = b.metricEvents ∧
  a.gameOverEvents = b.gameOverEvents ∧ a.longTurnEvents = b.longTurnEvents ∧
  a.balls = b.balls

/-- Verification infrastructure: the block hit-point invariant of the spec's
data model — `hp ≤ maxHp`, and between ticks `1 ≤ hp`. -/
def BlockHpInv (b : Block) : Prop := b.hp ≤ b.maxHp ∧ 1 ≤ b.hp

/-! ## Concrete fixtures used by witnesses and counterexamples -/

/-- Per-column draws whose spawn roll (`0.7 ≥ 0.6`) produces an empty new
row in every column. -/
def drawsEmpty : ℕ → Draws := fun _ => ⟨0.7, 0, 0, 0, 0, 0⟩

/-- A POISON square block covering pixels `[90,110] × [190,210]`, 5 hp. -/
def blockP : Block :=
  ⟨"p", 0, 0, 5, 5, Shape.SQUARE, Gimmick.POISON, 90, 190, 20, 20⟩

/-- An active launched ball centered inside `blockP`, moving upward. -/
def ballP : Ball := ⟨0, ⟨100, 200⟩, ⟨0, -80⟩, true, false⟩

/-- A one-ball SHOOTING-phase state in which the only ball sits on the
POISON block `blockP`. -/
def stateP : GameState where
  phase := GamePhase.SHOOTING
  width := 400
  height := 600
  level := 1
  score := 0
  totalBalls := 1
  ballsReturned := 0
  launchPos := ⟨200, 500⟩
  balls := [ballP]
  blocks := [blockP]
  items := []
  turnTimer := 0
  timeScale := 1
  launchPosUpdated := false
  nextLaunchPos := none
  collisionEvents := []
  metricEvents := []
  gameOverEvents := []
  longTurnEvents := []

/-- Two plain blocks deep in the board (rows 6 and 7): after the end-of-turn
downward shift both bottoms reach the game-over safety margin. -/
def stateGOX : GameState where
  phase := GamePhase.SHOOTING
  width := 354
  height := 600
  level := 3
  score := 1234
  totalBalls := 1
  ballsReturned := 1
  launchPos := ⟨177, 500⟩
  balls := []
  blocks := [⟨"a", 0, 6, 3, 3, Shape.SQUARE, Gimmick.NONE, 0, 0, 0, 0⟩,
             ⟨"b", 1, 7, 2, 2, Shape.SQUARE, Gimmick.NONE, 0, 0, 0, 0⟩]
  items := []
  turnTimer := 0
  timeScale := 1
  launchPosUpdated := false
  nextLaunchPos := none
  collisionEvents := []
  metricEvents := []
  gameOverEvents := []
  longTurnEvents := []

/-- A GAME_OVER-phase state (for the terminality statements). -/
def stateOver : GameState :=
  { stateGOX with phase := GamePhase.GAME_OVER }

/-- A destroyed EXPLOSIVE block at grid cell `(2,2)`. -/
def bkE : Block := ⟨"e", 2, 2, 0, 1, Shape.SQUARE, Gimmick.EXPLOSIVE, 0, 0, 0, 0⟩

/-- A live 8-neighbor of `bkE` (Chebyshev distance 1) and a live block at
Chebyshev distance 2. -/
def blocksE : List Block :=
  [⟨"n", 2, 3, 5, 5, Shape.SQUARE, Gimmick.NONE, 0, 0, 0, 0⟩,
   ⟨"f", 4, 2, 4, 4, Shape.SQUARE, Gimmick.NONE, 0, 0, 0, 0⟩]

end

/-! # Theorems -/

namespace Vec2

theorem mag_nonneg (v : Vec) : 0 ≤ mag v := Real.sqrt_nonneg _

theorem mag_sq (v : Vec) : mag v * mag v = v.x * v.x + v.y * v.y := by
  have h : 0 ≤ v.x * v.x + v.y * v.y := by
    have hx := mul_self_nonneg v.x
    have hy := mul_self_nonneg v.y
    linarith
  simpa [mag] using Real.mul_self_sqrt h

end Vec2

/-- **C8.** For every velocity `v` and unit normal `n`, `reflect v n` is the
formula `v − 2 (v·n) n` and its magnitude equals that of `v`. -/
theorem claim_C8_reflect_formula_and_magnitude (v n : Vec)
    (hn : n.x * n.x + n.y * n.y = 1) :
    Vec2.reflect v n = Vec2.sub v (Vec2.mul n (2 * Vec2.dot v n)) ∧
    Vec2.mag (Vec2.reflect v n) = Vec2.mag v := by
  refine ⟨rfl, ?_⟩
  unfold Vec2.reflect Vec2.sub Vec2.mul Vec2.dot Vec2.mag
  congr 1
  linear_combination (4 * (v.x * n.x + v.y * n.y) ^ 2) * hn

/-- Witness for C8 at `v = (3,4)`, `n = (0,-1)`. -/
theorem claim_C8_witness :
    ((0 : ℝ) * 0 + (-1 : ℝ) * (-1) = 1) ∧
    Vec2.mag (Vec2.reflect ⟨3, 4⟩ ⟨0, -1⟩) = Vec2.mag ⟨3, 4⟩ :=
  ⟨by norm_num,
    (claim_C8_reflect_formula_and_magnitude ⟨3, 4⟩ ⟨0, -1⟩ (by norm_num)).2⟩

/-- **C9.** `normalize` is a total function; it maps a vector of zero
magnitude (the source's `isNaN` disjunct is vacuous over exact reals) to
`(0,0)`, and any vector of positive magnitude to a unit-length vector
pointing along it. -/
theorem claim_C9_normalize_total (v : Vec) :
    (Vec2.mag v = 0 → Vec2.normalize v = ⟨0, 0⟩) ∧
    (0 < Vec2.mag v →
      Vec2.mag (Vec2.normalize v) = 1 ∧
      Vec2.normalize v = ⟨v.x / Vec2.mag v, v.y / Vec2.mag v⟩) := by
  constructor
  · intro hm
    simp [Vec2.normalize, hm]
  · intro hm
    have hne : Vec2.mag v ≠ 0 := ne_of_gt hm
    have hform : Vec2.normalize v = ⟨v.x / Vec2.mag v, v.y / Vec2.mag v⟩ := by
      simp [Vec2.normalize, hne]
    refine ⟨?_, hform⟩
    rw [hform]
    show Real.sqrt (v.x / Vec2.mag v * (v.x / Vec2.mag v) +
      v.y / Vec2.mag v * (v.y / Vec2.mag v)) = 1
    have key : v.x / Vec2.mag v * (v.x / Vec2.mag v) +
        v.y / Vec2.mag v * (v.y / Vec2.mag v) = 1 := by
      have hsq := Vec2.mag_sq v
      field_simp
      linarith [hsq]
    rw [key, Real.sqrt_one]

/-- Witness for C9 at `v = (0,0)` and `v = (3,4)`. -/
theorem claim_C9_witness :
    Vec2.normalize ⟨0, 0⟩ = (⟨0, 0⟩ : Vec) ∧
    Vec2.mag (Vec2.normalize ⟨3, 4⟩) = 1 := by
  constructor
  · exact (claim_C9_normalize_total ⟨0, 0⟩).1 (by norm_num [Vec2.mag])
  · refine ((claim_C9_normalize_total ⟨3, 4⟩).2 ?_).1
    show (0 : ℝ) < Real.sqrt ((3 : ℝ) * 3 + 4 * 4)
    rw [Real.sqrt_pos]
    norm_num

/-- **C6.** For a clamped frame delta `0 < dt ≤ 0.1`, the physics step uses
exactly `ceil(maxSpeed·dt / (ballRadius·0.5))` sub-steps, divides `dt`
evenly among them, and any ball at most as fast as the configured maximum
covers at most half a ball radius per sub-step. -/
theorem claim_C6_substep_bound (dt speed : ℝ) (h0 : 0 < dt) (h1 : dt ≤ 0.1)
    (hs0 : 0 ≤ speed) (hs : speed ≤ CONSTANTS.BALL_SPEED) :
    physicsSteps dt =
      (⌈CONSTANTS.BALL_SPEED * dt / (CONSTANTS.BALL_RADIUS * 0.5)⌉).toNat ∧
    (physicsSteps dt : ℝ) * (dt / (physicsSteps dt : ℝ)) = dt ∧
    speed * (dt / (physicsSteps dt : ℝ)) ≤ CONSTANTS.BALL_RADIUS * 0.5 := by
  have hBS : CONSTANTS.BALL_SPEED = (800 : ℝ) := rfl
  have hBR : CONSTANTS.BALL_RADIUS * 0.5 = (3 : ℝ) := by
    norm_num [CONSTANTS.BALL_RADIUS]
  have ha : (0 : ℝ) < CONSTANTS.BALL_SPEED * dt / (CONSTANTS.BALL_RADIUS * 0.5) := by
    rw [hBS, hBR]; positivity
  have hceil : 0 < ⌈CONSTANTS.BALL_SPEED * dt / (CONSTANTS.BALL_RADIUS * 0.5)⌉ :=
    Int.ceil_pos.mpr ha
  have hcast : ((physicsSteps dt : ℕ) : ℝ) =
      ((⌈CONSTANTS.BALL_SPEED * dt / (CONSTANTS.BALL_RADIUS * 0.5)⌉ : ℤ) : ℝ) := by
    rw [physicsSteps]
    exact_mod_cast Int.toNat_of_nonneg hceil.le
  have hle : CONSTANTS.BALL_SPEED * dt / (CONSTANTS.BALL_RADIUS * 0.5) ≤
      ((physicsSteps dt : ℕ) : ℝ) := by
    rw [hcast]; exact Int.le_ceil _
  have hnpos : (0 : ℝ) < ((physicsSteps dt : ℕ) : ℝ) := lt_of_lt_of_le ha hle
  have hnne : ((physicsSteps dt : ℕ) : ℝ) ≠ 0 := ne_of_gt hnpos
  refine ⟨rfl, by field_simp, ?_⟩
  have h3 : speed * (dt / ((physicsSteps dt : ℕ) : ℝ)) ≤
      CONSTANTS.BALL_SPEED * (dt / ((physicsSteps dt : ℕ) : ℝ)) :=
    mul_le_mul_of_nonneg_right hs (by positivity)
  have h4 : CONSTANTS.BALL_SPEED * (dt / ((physicsSteps dt : ℕ) : ℝ)) ≤
      CONSTANTS.BALL_RADIUS * 0.5 := by
    rw [hBS, hBR] at hle ⊢
    rw [mul_div_assoc', div_le_iff hnpos]
    rw [div_le_iff (by norm_num : (0 : ℝ) < 3)] at hle
    linarith
  linarith

/-- Witness for C6 at `dt = 1/60`, `speed = 800`. -/
theorem claim_C6_witness :
    (0 : ℝ) < 1 / 60 ∧ (1 / 60 : ℝ) ≤ 0.1 ∧
    (800 : ℝ) * ((1 / 60) / (physicsSteps (1 / 60) : ℝ)) ≤
      CONSTANTS.BALL_RADIUS * 0.5 :=
  ⟨by norm_num, by norm_num,
    (claim_C6_substep_bound (1 / 60) 800 (by norm_num) (by norm_num)
      (by norm_num) (by rw [CONSTANTS.BALL_SPEED])).2.2⟩

/-! ## Helper lemmas on the post-physics resolution -/

theorem scoreGain_foldl_ge (l : List Block) : ∀ acc : ℤ, acc ≤ l.foldl scoreStep acc := by
  induction l with
  | nil => intro acc; exact le_refl _
  | cons b t ih =>
    intro acc
    refine le_trans ?_ (ih (scoreStep acc b))
    unfold scoreStep; split <;> omega

theorem scoreGainOf_nonneg (l : List Block) : 0 ≤ scoreGainOf l :=
  scoreGain_foldl_ge l 0

theorem addCell_shape (d : ℕ → Draws) (n : ℕ) (acc : GameState) (col : ℕ) :
    ∃ bs is', addCell d n acc col = { acc with blocks := bs, items := is' } := by
  simp only [addCell]
  split_ifs
  · exact ⟨_, _, rfl⟩
  · exact ⟨_, _, rfl⟩
  · exact ⟨acc.blocks, acc.items, rfl⟩

theorem addCellFold_shape (d : ℕ → Draws) (n : ℕ) (l : List ℕ) :
    ∀ acc : GameState, ∃ bs is',
      l.foldl (addCell d n) acc = { acc with blocks := bs, items := is' } := by
  induction l with
  | nil => intro acc; exact ⟨acc.blocks, acc.items, rfl⟩
  | cons c t ih =>
    intro acc
    obtain ⟨bs0, is0, h0⟩ := addCell_shape d n acc c
    obtain ⟨bs1, is1, h1⟩ := ih (addCell d n acc c)
    refine ⟨bs1, is1, ?_⟩
    rw [List.foldl_cons, h1, h0]

theorem sameCore_trans {a b c : GameState} (h1 : SameCore a b)
    (h2 : SameCore b c) : SameCore a c := by
  unfold SameCore at *
  obtain ⟨p1, w1, h1', l1, s1, t1, r1, lp1, tt1, ts1, lu1, nl1, ce1, me1, ge1,
    lt1, bl1⟩ := h1
  obtain ⟨p2, w2, h2', l2, s2, t2, r2, lp2, tt2, ts2, lu2, nl2, ce2, me2, ge2,
    lt2, bl2⟩ := h2
  exact ⟨p1.trans p2, w1.trans w2, h1'.trans h2', l1.trans l2, s1.trans s2,
    t1.trans t2, r1.trans r2, lp1.trans lp2, tt1.trans tt2, ts1.trans ts2,
    lu1.trans lu2, nl1.trans nl2, ce1.trans ce2, me1.trans me2, ge1.trans ge2,
    lt1.trans lt2, bl1.trans bl2⟩

theorem sameCore_updateBlockLayout (s : GameState) :
    SameCore (updateBlockLayout s) s := by
  unfold SameCore updateBlockLayout
  exact ⟨rfl, rfl, rfl, rfl, rfl, rfl, rfl, rfl, rfl, rfl, rfl, rfl, rfl, rfl,
    rfl, rfl, rfl⟩

theorem sameCore_moveBlocksDown (s : GameState) :
    SameCore (moveBlocksDown s) s := by
  unfold SameCore moveBlocksDown updateBlockLayout
  exact ⟨rfl, rfl, rfl, rfl, rfl, rfl, rfl, rfl, rfl, rfl, rfl, rfl, rfl, rfl,
    rfl, rfl, rfl⟩

theorem sameCore_addCell (d : ℕ → Draws) (n : ℕ) (acc : GameState) (col : ℕ) :
    SameCore (addCell d n acc col) acc := by
  obtain ⟨bs, is', h⟩ := addCell_shape d n acc col
  rw [h]
  unfold SameCore
  exact ⟨rfl, rfl, rfl, rfl, rfl, rfl, rfl, rfl, rfl, rfl, rfl, rfl, rfl, rfl,
    rfl, rfl, rfl⟩

theorem sameCore_addCellFold (d : ℕ → Draws) (n : ℕ) (l : List ℕ) :
    ∀ acc : GameState, SameCore (l.foldl (addCell d n) acc) acc := by
  induction l with
  | nil =>
    intro acc
    unfold SameCore
    exact ⟨rfl, rfl, rfl, rfl, rfl, rfl, rfl, rfl, rfl, rfl, rfl, rfl, rfl,
      rfl, rfl, rfl, rfl⟩
  | cons c t ih =>
    intro acc
    rw [List.foldl_cons]
    exact sameCore_trans (ih (addCell d n acc c)) (sameCore_addCell d n acc c)

theorem sameCore_addBlockRow (d : ℕ → Draws) (n : ℕ) (x : GameState) :
    SameCore (addBlockRow d n x) x := by
  unfold addBlockRow
  exact sameCore_trans (sameCore_updateBlockLayout _)
    (sameCore_addCellFold d n (List.range CONSTANTS.COLS) x)

theorem endTurnBoard_pres (d : ℕ → Draws) (n : ℕ) (s : GameState) :
    (endTurnBoard d n s).score = s.score ∧
    (endTurnBoard d n s).gameOverEvents = s.gameOverEvents ∧
    (endTurnBoard d n s).metricEvents = s.metricEvents ∧
    (endTurnBoard d n s).collisionEvents = s.collisionEvents ∧
    (endTurnBoard d n s).longTurnEvents = s.longTurnEvents ∧
    (endTurnBoard d n s).totalBalls = s.totalBalls ∧
    (endTurnBoard d n s).level = s.level + 1 ∧
    (endTurnBoard d n s).phase = GamePhase.AIMING ∧
    (endTurnBoard d n s).launchPos = s.nextLaunchPos.getD s.launchPos ∧
    (endTurnBoard d n s).height = s.height ∧
    (endTurnBoard d n s).width = s.width := by
  have h := sameCore_trans
    (sameCore_addBlockRow d n (moveBlocksDown (endTurnPrep s)))
    (sameCore_moveBlocksDown (endTurnPrep s))
  obtain ⟨hph, hw, hh, hl, hsc, htb, hbr, hlp, htt, hts, hlu, hnl, hce, hme,
    hge, hlt, hbl⟩ := h
  exact ⟨hsc, hge, hme, hce, hlt, htb, hl, hph, hlp, hh, hw⟩

/-- The game-over forEach of `Engine.endTurn`, characterized: it appends one
`onGameOver(score)` invocation per block whose bottom edge reaches the
threshold, and moves the phase to GAME_OVER exactly when at least one block
does. -/
theorem gameOverFold_spec (th : ℝ) (l : List Block) :
    ∀ acc : GameState,
      l.foldl (gameOverStep th) acc =
        { acc with
          phase := if l.countP (fun b => decide (b.y + b.height ≥ th)) = 0
            then acc.phase else GamePhase.GAME_OVER
          gameOverEvents := acc.gameOverEvents ++
            List.replicate (l.countP (fun b => decide (b.y + b.height ≥ th)))
              acc.score } := by
  induction l with
  | nil => intro acc; simp
  | cons b t ih =>
    intro acc
    rw [List.foldl_cons]
    by_cases hb : b.y + b.height ≥ th
    · have hstep : gameOverStep th acc b =
          { acc with
            phase := GamePhase.GAME_OVER
            gameOverEvents := acc.gameOverEvents ++ [acc.score] } := by
        unfold gameOverStep; rw [if_pos hb]
      rw [hstep, ih]
      have hcount : (b :: t).countP (fun b => decide (b.y + b.height ≥ th)) =
          t.countP (fun b => decide (b.y + b.height ≥ th)) + 1 := by
        rw [List.countP_cons]; simp [hb]
      rw [hcount]
      simp [List.replicate_succ, List.append_assoc]
    · have hstep : gameOverStep th acc b = acc := by
        unfold gameOverStep; rw [if_neg hb]
      rw [hstep, ih]
      have hcount : (b :: t).countP (fun b => decide (b.y + b.height ≥ th)) =
          t.countP (fun b => decide (b.y + b.height ≥ th)) := by
        rw [List.countP_cons]; simp [hb]
      rw [hcount]

theorem gameOverScan_spec (s : GameState) :
    gameOverScan s =
      { s with
        phase := if s.blocks.countP
            (fun b => decide (b.y + b.height ≥ s.launchPos.y - 50)) = 0
          then s.phase else GamePhase.GAME_OVER
        gameOverEvents := s.gameOverEvents ++
          List.replicate (s.blocks.countP
            (fun b => decide (b.y + b.height ≥ s.launchPos.y - 50))) s.score } :=
  gameOverFold_spec (s.launchPos.y - 50) s.blocks s

theorem endTurn_score (d : ℕ → Draws) (n : ℕ) (s : GameState) :
    (endTurn d n s).score = s.score := by
  unfold endTurn
  rw [gameOverScan_spec]
  simpa [emitMetrics] using (endTurnBoard_pres d n s).1

/-! ## Helper lemmas on the physics step -/

theorem blockPass_skip (p v : Vec) (rest : List Block) :
    ∀ pre : List Block,
      (∀ b' ∈ pre, b'.hp ≤ 0 ∨ checkCollision p b' = none) →
      blockPass p v (pre ++ rest) =
        { blockPass p v rest with blocks := pre ++ (blockPass p v rest).blocks } := by
  intro pre
  induction pre with
  | nil => intro _; simp
  | cons b t ih =>
    intro hpre
    have hb := hpre b (List.mem_cons_self b t)
    have ht : ∀ b' ∈ t, b'.hp ≤ 0 ∨ checkCollision p b' = none :=
      fun b' hb' => hpre b' (List.mem_cons_of_mem b hb')
    rw [List.cons_append]
    by_cases hhp : b.hp ≤ 0
    · simp only [blockPass]
      rw [if_pos hhp, ih ht]
      simp
    · have hnone : checkCollision p b = none := hb.resolve_left hhp
      simp only [blockPass]
      rw [if_neg hhp, hnone, ih ht]
      simp

/-- The POISON branch of the block loop, when the first block of the list is
live, overlapping and POISON. -/
theorem blockPass_poison_head (p v : Vec) (b : Block) (post : List Block)
    (hb : ¬(b.hp ≤ 0)) (hc : ∃ cc, checkCollision p b = some cc)
    (hg : b.gimmick = Gimmick.POISON) :
    blockPass p v (b :: post) =
      ⟨p, v, { b with hp := b.hp - 1 } :: post,
       [⟨p, if b.hp - 1 ≤ 0 then EvKind.DESTROY else EvKind.HIT, "#a855f7"⟩],
       true⟩ := by
  obtain ⟨cc, hcc⟩ := hc
  simp only [blockPass]
  rw [if_neg hb, hcc]
  dsimp only
  rw [if_pos hg]

/-- The predicted center `(100, 199.7)` of the fixture ball lies inside the
POISON block's box, so the narrow phase reports a contact (whatever its
normal/depth payload). -/
theorem checkCollision_poisonBlock (hpv : ℤ) :
    ∃ cc, checkCollision ⟨100, 1997 / 10⟩
      ⟨"p", 0, 0, hpv, 5, Shape.SQUARE, Gimmick.POISON, 90, 190, 20, 20⟩ =
      some cc := by
  simp only [checkCollision, checkAABBCollision]
  split
  · exact ⟨_, rfl⟩
  · rename_i h
    exact absurd (by norm_num [CONSTANTS.BALL_RADIUS, min_def, max_def]) h

/-- One sub-step of the fixture ball against the POISON block: the ball dies
in place, the block loses 1 hp, one HIT event fires — whatever the ball's
activity flags were when the sub-step ran. -/
theorem stepBall_poisonBlock (hpv : ℤ) (h1 : 1 < hpv) (act ret : Bool) :
    stepBall 400 (3 / 800) ⟨0, ⟨100, 200⟩, ⟨0, -80⟩, act, ret⟩
        [⟨"p", 0, 0, hpv, 5, Shape.SQUARE, Gimmick.POISON, 90, 190, 20, 20⟩]
        [] =
      ⟨⟨0, ⟨100, 200⟩, ⟨0, -80⟩, false, true⟩,
       [⟨"p", 0, 0, hpv - 1, 5, Shape.SQUARE, Gimmick.POISON, 90, 190, 20, 20⟩],
       [], [⟨⟨100, 1997 / 10⟩, EvKind.HIT, "#a855f7"⟩]⟩ := by
  have hnp : Vec2.add ⟨100, 200⟩ (Vec2.mul ⟨0, -80⟩ (3 / 800)) =
      (⟨100, 1997 / 10⟩ : Vec) := by
    simp only [Vec2.add, Vec2.mul]
    norm_num
  simp only [stepBall, hnp]
  rw [if_neg (by norm_num [CONSTANTS.BALL_RADIUS] :
    ¬((⟨100, 1997 / 10⟩ : Vec).x - CONSTANTS.BALL_RADIUS < 0))]
  dsimp only
  rw [if_neg (by norm_num [CONSTANTS.BALL_RADIUS] :
    ¬((⟨100, 1997 / 10⟩ : Vec).x + CONSTANTS.BALL_RADIUS > 400))]
  dsimp only
  rw [if_neg (by norm_num [CONSTANTS.BALL_RADIUS] :
    ¬((⟨100, 1997 / 10⟩ : Vec).y - CONSTANTS.BALL_RADIUS < 0))]
  dsimp only
  rw [blockPass_poison_head _ _ _ _ (by simp; omega)
    (checkCollision_poisonBlock hpv) rfl]
  dsimp only
  rw [if_pos rfl]
  simp only [List.map_nil]
  rw [if_neg (by omega : ¬(hpv - 1 ≤ 0))]

/-- **C2 (amended).** When a live ball's sub-step predicted center first
overlaps a POISON block (first in container order; no wall contact this
sub-step), that sub-step deactivates the ball and marks it returning,
decrements that block's hp by exactly 1, emits exactly one collision event
(DESTROY if the hp is then ≤ 0 else HIT, with the poison color hint
`#a855f7`), and leaves the ball's position and velocity untouched (the
integration of this sub-step is discarded).  The ball is only skipped for
the rest of this sub-step: `PhysicsSystem.update` captures its active list
once per tick, so later sub-steps of the same tick still step the dead ball
(see the counterexample for the repeated contact this produces). -/
theorem claim_C2_poison_substep (width dt : ℝ) (ball : Ball)
    (items : List Item) (pre post : List Block) (b : Block) (np : Vec)
    (hnp : np = Vec2.add ball.position (Vec2.mul ball.velocity dt))
    (hw1 : ¬(np.x - CONSTANTS.BALL_RADIUS < 0))
    (hw2 : ¬(np.x + CONSTANTS.BALL_RADIUS > width))
    (hw3 : ¬(np.y - CONSTANTS.BALL_RADIUS < 0))
    (hpre : ∀ b' ∈ pre, b'.hp ≤ 0 ∨ checkCollision np b' = none)
    (hb : ¬(b.hp ≤ 0)) (hc : ∃ cc, checkCollision np b = some cc)
    (hg : b.gimmick = Gimmick.POISON) :
    stepBall width dt ball (pre ++ b :: post) items =
      ⟨{ ball with isActive := false, isReturning := true },
       pre ++ { b with hp := b.hp - 1 } :: post,
       items.map (itemSensor np),
       [⟨np, if b.hp - 1 ≤ 0 then EvKind.DESTROY else EvKind.HIT,
         "#a855f7"⟩]⟩ := by
  simp only [stepBall]
  rw [← hnp, if_neg hw1]
  dsimp only
  rw [if_neg hw2]
  dsimp only
  rw [if_neg hw3]
  dsimp only
  rw [blockPass_skip np ball.velocity (b :: post) pre hpre,
    blockPass_poison_head np ball.velocity b post hb hc hg]
  dsimp only
  rw [if_pos rfl]

/-- Witness for the amended C2 at the `ballP`/`blockP` fixture: the ball is
deactivated and marked returning with position and velocity untouched, the
block drops from 5 to 4 hp, and exactly one HIT event with the poison color
fires in that sub-step. -/
theorem claim_C2_witness :
    (stepBall 400 (3 / 800) ballP [blockP] []).ball.isActive = false ∧
    (stepBall 400 (3 / 800) ballP [blockP] []).ball.isReturning = true ∧
    (stepBall 400 (3 / 800) ballP [blockP] []).ball.position = ballP.position ∧
    (stepBall 400 (3 / 800) ballP [blockP] []).ball.velocity = ballP.velocity ∧
    (stepBall 400 (3 / 800) ballP [blockP] []).blocks.map Block.hp = [4] ∧
    (stepBall 400 (3 / 800) ballP [blockP] []).events =
      [⟨⟨100, 1997 / 10⟩, EvKind.HIT, "#a855f7"⟩] := by
  have h := claim_C2_poison_substep 400 (3 / 800) ballP [] [] [] blockP
    ⟨100, 1997 / 10⟩
    (by simp only [ballP, Vec2.add, Vec2.mul]; norm_num)
    (by norm_num [CONSTANTS.BALL_RADIUS])
    (by norm_num [CONSTANTS.BALL_RADIUS])
    (by norm_num [CONSTANTS.BALL_RADIUS])
    (by simp)
    (by norm_num [blockP])
    (checkCollision_poisonBlock 5)
    rfl
  simp only [List.nil_append] at h
  rw [h]
  norm_num [blockP, ballP]

/-- Counterexample to C2 as stated: with `dt = 3/400` the tick has two
sub-steps; the ball poisoned in the first sub-step is stepped **again** in
the second one (the active list was captured before the sub-step loop), so
the POISON block is hit twice in the tick — its hp drops by 2 and two
collision events fire, not one. -/
theorem claim_C2_counterexample :
    (physicsUpdate 400 (3 / 400) [ballP] [blockP] []).blocks.map Block.hp =
      [3] ∧
    (physicsUpdate 400 (3 / 400) [ballP] [blockP] []).events.length = 2 := by
  have hsteps : physicsSteps (3 / 400) = 2 := by
    have h2 : CONSTANTS.BALL_SPEED * (3 / 400) /
        (CONSTANTS.BALL_RADIUS * 0.5) = ((2 : ℤ) : ℝ) := by
      norm_num [CONSTANTS.BALL_SPEED, CONSTANTS.BALL_RADIUS]
    rw [physicsSteps, h2, Int.ceil_intCast]
    rfl
  have hs1 := stepBall_poisonBlock 5 (by norm_num) true false
  have hs2 := stepBall_poisonBlock 4 (by norm_num) false true
  simp only [physicsUpdate, hsteps]
  norm_num [ballP, blockP, List.range_succ, substepPass, hs1, hs2]

/-- **C1 (code bug witnessed).** A SHOOTING tick in which the turn's only
ball dies on a POISON block: after the tick the ball is marked returning
(returning-marked count equals the total ball count of the turn), yet
`ballsReturned` is still 0, the phase is still SHOOTING and the level is
unchanged — `endTurn` was not invoked, and no later tick can invoke it,
because the reconciliation branch skips balls that physics already marked
returning. -/
theorem claim_C1_poison_turn_never_ends :
    (engineUpdate drawsEmpty 0 (3 / 800) stateP).balls.countP
      (fun b => b.isReturning) =
      (engineUpdate drawsEmpty 0 (3 / 800) stateP).balls.length ∧
    (engineUpdate drawsEmpty 0 (3 / 800) stateP).balls.length = 1 ∧
    (engineUpdate drawsEmpty 0 (3 / 800) stateP).ballsReturned = 0 ∧
    (engineUpdate drawsEmpty 0 (3 / 800) stateP).phase = GamePhase.SHOOTING ∧
    (engineUpdate drawsEmpty 0 (3 / 800) stateP).level = 1 := by
  have hsteps : physicsSteps (3 / 800) = 1 := by
    have h2 : CONSTANTS.BALL_SPEED * (3 / 800) /
        (CONSTANTS.BALL_RADIUS * 0.5) = ((1 : ℤ) : ℝ) := by
      norm_num [CONSTANTS.BALL_SPEED, CONSTANTS.BALL_RADIUS]
    rw [physicsSteps, h2, Int.ceil_intCast]
    rfl
  have hs1 := stepBall_poisonBlock 5 (by norm_num) true false
  have hphys : physicsUpdate 400 (3 / 800) [ballP] [blockP] [] =
      ⟨[⟨0, ⟨100, 200⟩, ⟨0, -80⟩, false, true⟩],
       [⟨"p", 0, 0, 4, 5, Shape.SQUARE, Gimmick.POISON, 90, 190, 20, 20⟩],
       [], [⟨⟨100, 1997 / 10⟩, EvKind.HIT, "#a855f7"⟩]⟩ := by
    simp only [physicsUpdate, hsteps]
    norm_num [ballP, blockP, List.range_succ, substepPass, hs1]
  simp only [engineUpdate]
  rw [if_pos (by simp [stateP])]
  norm_num [stateP, hphys, resolveTick, scoreGainOf, processReturns,
    returnStep, emitMetrics]

/-- Counterexample to C3 as stated: an `endTurn` after which **two** blocks
lie within the safety margin fires the game-over callback twice in the same
transition (the claim says exactly once per session). -/
theorem claim_C3_counterexample :
    (endTurn drawsEmpty 0 stateGOX).gameOverEvents = [1234, 1234] ∧
    (endTurn drawsEmpty 0 stateGOX).phase = GamePhase.GAME_OVER := by
  have hboard : endTurnBoard drawsEmpty 0 stateGOX =
      { phase := GamePhase.AIMING
        width := 354
        height := 600
        level := 4
        score := 1234
        totalBalls := 1
        ballsReturned := 1
        launchPos := ⟨177, 500⟩
        balls := [⟨0, ⟨177, 500⟩, ⟨0, 0⟩, false, false⟩]
        blocks := [⟨"a", 0, 7, 3, 3, Shape.SQUARE, Gimmick.NONE, 4, 450, 46, 46⟩,
                   ⟨"b", 1, 8, 2, 2, Shape.SQUARE, Gimmick.NONE, 54, 500, 46, 46⟩]
        items := []
        turnTimer := 0
        timeScale := 1
        launchPosUpdated := false
        nextLaunchPos := none
        collisionEvents := []
        metricEvents := []
        gameOverEvents := []
        longTurnEvents := [] } := by
    norm_num [endTurnBoard, endTurnPrep, moveBlocksDown, addBlockRow, addCell,
      drawsEmpty, updateBlockLayout, resetBalls, stateGOX, CONSTANTS.COLS,
      CONSTANTS.BLOCK_GAP, Block.updatePosition, Item.updatePosition,
      List.range_succ]
  unfold endTurn
  rw [hboard, gameOverScan_spec]
  norm_num [emitMetrics, List.replicate]

/-- **C4.** For a destroyed EXPLOSIVE block, the neighbor-damage pass sends
every still-live block at Chebyshev grid distance exactly 1 from `hp` to
`hp - 2` and leaves every other entry — the exploding block itself (distance
0, and already at `hp ≤ 0`) and every block at distance ≥ 2 — unchanged. -/
theorem claim_C4_explosive_neighbors (bk : Block) (blocks : List Block)
    (hg : bk.gimmick = Gimmick.EXPLOSIVE) (hd : bk.hp ≤ 0)
    (i : ℕ) (hi : i < blocks.length) :
    (explodeOne bk blocks).length = blocks.length ∧
    (explodeOne bk blocks)[i]? =
      some (if 0 < blocks[i].hp ∧
          max (blocks[i].col - bk.col).natAbs (blocks[i].row - bk.row).natAbs = 1
        then { blocks[i] with hp := blocks[i].hp - 2 }
        else blocks[i]) := by
  unfold explodeOne
  rw [if_pos hg]
  refine ⟨List.length_map _ _, ?_⟩
  rw [List.getElem?_map, List.getElem?_eq_getElem hi, Option.map_some']
  congr 1
  simp only [explodeDamage]
  by_cases h1 : blocks[i].hp ≤ 0
  · rw [if_pos h1, if_neg]
    rintro ⟨hpos, -⟩
    omega
  · rw [if_neg h1]
    have h2 : 0 < blocks[i].hp := lt_of_not_le h1
    by_cases h3 : (blocks[i].col - bk.col).natAbs ≤ 1 ∧
        (blocks[i].row - bk.row).natAbs ≤ 1 ∧
        0 < (blocks[i].col - bk.col).natAbs + (blocks[i].row - bk.row).natAbs
    · rw [if_pos h3, if_pos ⟨h2, by omega⟩]
    · rw [if_neg h3, if_neg]
      rintro ⟨-, hmax⟩
      exact h3 (by omega)

/-- Witness for C4: `bkE` destroyed at `(2,2)`; the live block at `(2,3)`
(Chebyshev distance 1) drops from 5 to 3 hp, the live block at `(4,2)`
(Chebyshev distance 2) keeps its 4 hp. -/
theorem claim_C4_witness :
    (explodeOne bkE blocksE).length = 2 ∧
    ((explodeOne bkE blocksE)[0]?).map Block.hp = some 3 ∧
    ((explodeOne bkE blocksE)[1]?).map Block.hp = some 4 := by
  have h0 := claim_C4_explosive_neighbors bkE blocksE rfl (by norm_num [bkE]) 0
    (by norm_num [blocksE])
  have h1 := claim_C4_explosive_neighbors bkE blocksE rfl (by norm_num [bkE]) 1
    (by norm_num [blocksE])
  refine ⟨by simpa [blocksE] using h0.1, ?_, ?_⟩
  · rw [h0.2]
    norm_num [blocksE, bkE]
  · rw [h1.2]
    norm_num [blocksE, bkE]

/-- **C5.** The post-physics resolution raises the score by exactly the sum
of 500 per GOLD block and 100 per other block over the blocks collected as
destroyed this tick (`hp ≤ 0` after the physics step, before explosion
chaining — the set the spec's step 1 collects), and the score never
decreases. -/
theorem claim_C5_score_delta (draws : ℕ → Draws) (now : ℕ) (s : GameState) :
    (resolveTick draws now s).score =
      s.score + scoreGainOf (s.blocks.filter (fun b => b.hp ≤ 0)) ∧
    s.score ≤ (resolveTick draws now s).score := by
  have hg := scoreGainOf_nonneg (s.blocks.filter (fun b => b.hp ≤ 0))
  have key : (resolveTick draws now s).score =
      s.score + scoreGainOf (s.blocks.filter (fun b => b.hp ≤ 0)) := by
    simp only [resolveTick, emitMetrics]
    split_ifs with h1 h2 h3 <;>
      simp [endTurn_score] <;> omega
  exact ⟨key, by rw [key]; omega⟩

/-- **C3 (amended).** At `endTurn`, the game-over callback fires once **per**
block whose bottom edge lies within the 50px safety margin of the launch
y-coordinate (each call carrying the final score), the phase moves to
GAME_OVER exactly when at least one such block exists, a metric-update
callback still fires after the transition, and GAME_OVER is terminal for
`update`: a tick in that phase changes nothing and fires nothing. -/
theorem claim_C3_gameover_per_block (draws : ℕ → Draws) (now : ℕ)
    (s : GameState) (dt : ℝ) (s' : GameState)
    (hs' : s'.phase = GamePhase.GAME_OVER) :
    ((endTurn draws now s).gameOverEvents = s.gameOverEvents ++
      List.replicate ((endTurnBoard draws now s).blocks.countP
        (fun b => decide (b.y + b.height ≥
          (endTurnBoard draws now s).launchPos.y - 50))) s.score) ∧
    ((endTurn draws now s).phase = if (endTurnBoard draws now s).blocks.countP
        (fun b => decide (b.y + b.height ≥
          (endTurnBoard draws now s).launchPos.y - 50)) = 0
      then GamePhase.AIMING else GamePhase.GAME_OVER) ∧
    ((endTurn draws now s).metricEvents = s.metricEvents ++
      [(s.score, s.level + 1, s.totalBalls)]) ∧
    engineUpdate draws now dt s' = s' := by
  obtain ⟨hsc, hge, hme, hce, hlt, htb, hl, hph, hlp, hh, hw⟩ :=
    endTurnBoard_pres draws now s
  unfold endTurn
  rw [gameOverScan_spec (endTurnBoard draws now s)]
  refine ⟨?_, ?_, ?_, ?_⟩
  · simp [emitMetrics, hge, hsc]
  · simp only [emitMetrics]
    split_ifs with h <;> simp [h, hph]
  · simp [emitMetrics, hme, hsc, hl, htb]
  · simp [engineUpdate, hs']

/-- Witness for the amended C3 at a GAME_OVER state: a tick in GAME_OVER is
the identity, and an `endTurn` fires the metric callback after the
transition with the current score, the advanced level and the ball count. -/
theorem claim_C3_witness :
    stateOver.phase = GamePhase.GAME_OVER ∧
    engineUpdate drawsEmpty 0 1 stateOver = stateOver ∧
    (endTurn drawsEmpty 0 stateOver).metricEvents = [(1234, 4, 1)] := by
  have h := claim_C3_gameover_per_block drawsEmpty 0 stateOver 1 stateOver rfl
  refine ⟨rfl, h.2.2.2, ?_⟩
  have hm := h.2.2.1
  simpa [stateOver, stateGOX] using hm

/-- **C10.** The aim-assist query is read-only: it hands the engine state
back unchanged (the embedded `predictTrajectory` is a pure function of the
width, the inputs and the block list), and its result is an ordered polyline
whose first point is the start position. -/
theorem claim_C10_predict_readonly (s : GameState) (startPos direction : Vec)
    (maxBounces : ℕ) :
    (queryTrajectory s startPos direction maxBounces).2 = s ∧
    (queryTrajectory s startPos direction maxBounces).1.head? = some startPos := by
  refine ⟨rfl, ?_⟩
  show (predictTrajectory s.width startPos direction maxBounces s.blocks).head? =
    some startPos
  unfold predictTrajectory
  split <;> rfl

/-! ## Helper lemmas for the block hit-point invariant (C7) -/

theorem weakens_trans {l1 l2 l3 : List Block}
    (h12 : ∀ b ∈ l2, ∃ a ∈ l1, b.hp ≤ a.hp ∧ b.maxHp = a.maxHp)
    (h23 : ∀ b ∈ l3, ∃ a ∈ l2, b.hp ≤ a.hp ∧ b.maxHp = a.maxHp) :
    ∀ b ∈ l3, ∃ a ∈ l1, b.hp ≤ a.hp ∧ b.maxHp = a.maxHp := by
  intro b hb
  obtain ⟨m, hm, hle1, hmax1⟩ := h23 b hb
  obtain ⟨a, ha, hle2, hmax2⟩ := h12 m hm
  exact ⟨a, ha, le_trans hle1 hle2, hmax1.trans hmax2⟩

/-- Every block coming out of the block loop of one `stepBall` descends from
an input block with at most its hp and the same maxHp (damage is `hp -= 1`
on at most one block). -/
theorem blockPass_weakens (p v : Vec) :
    ∀ blocks : List Block, ∀ b' ∈ (blockPass p v blocks).blocks,
      ∃ a ∈ blocks, b'.hp ≤ a.hp ∧ b'.maxHp = a.maxHp := by
  intro blocks
  induction blocks with
  | nil => intro b' hb'; simp [blockPass] at hb'
  | cons b rest ih =>
    intro b' hb'
    simp only [blockPass] at hb'
    by_cases hhp : b.hp ≤ 0
    · rw [if_pos hhp] at hb'
      dsimp only at hb'
      rcases List.mem_cons.mp hb' with h | h
      · exact ⟨b, List.mem_cons_self _ _, le_of_eq (congrArg Block.hp h),
          congrArg Block.maxHp h⟩
      · obtain ⟨a, ha, hle, hmax⟩ := ih b' h
        exact ⟨a, List.mem_cons_of_mem _ ha, hle, hmax⟩
    · rw [if_neg hhp] at hb'
      rcases hcc : checkCollision p b with _ | c <;> rw [hcc] at hb' <;>
        dsimp only at hb'
      · rcases List.mem_cons.mp hb' with h | h
        · exact ⟨b, List.mem_cons_self _ _, le_of_eq (congrArg Block.hp h),
            congrArg Block.maxHp h⟩
        · obtain ⟨a, ha, hle, hmax⟩ := ih b' h
          exact ⟨a, List.mem_cons_of_mem _ ha, hle, hmax⟩
      · by_cases hg : b.gimmick = Gimmick.POISON
        · rw [if_pos hg] at hb'
          dsimp only at hb'
          rcases List.mem_cons.mp hb' with h | h
          · refine ⟨b, List.mem_cons_self _ _, ?_, ?_⟩
            · rw [h]; dsimp only; omega
            · rw [h]
          · exact ⟨b', List.mem_cons_of_mem _ h, le_refl _, rfl⟩
        · rw [if_neg hg] at hb'
          dsimp only at hb'
          rcases List.mem_cons.mp hb' with h | h
          · refine ⟨b, List.mem_cons_self _ _, ?_, ?_⟩
            · rw [h]; dsimp only; omega
            · rw [h]
          · exact ⟨b', List.mem_cons_of_mem _ h, le_refl _, rfl⟩

theorem stepBall_weakens (w dt : ℝ) (ball : Ball) (blocks : List Block)
    (items : List Item) :
    ∀ b' ∈ (stepBall w dt ball blocks items).blocks,
      ∃ a ∈ blocks, b'.hp ≤ a.hp ∧ b'.maxHp = a.maxHp := by
  simp only [stepBall]
  exact blockPass_weakens _ _ blocks

theorem substepPass_weakens (w d : ℝ) (idx : List ℕ) :
    ∀ st : PhysOut, ∀ b' ∈ (substepPass w d idx st).blocks,
      ∃ a ∈ st.blocks, b'.hp ≤ a.hp ∧ b'.maxHp = a.maxHp := by
  induction idx with
  | nil => intro st b' hb'; exact ⟨b', hb', le_refl _, rfl⟩
  | cons i rest ih =>
    intro st b' hb'
    have hb2 : b' ∈ (substepPass w d rest
        ⟨st.balls.set i (stepBall w d (st.balls.getD i default) st.blocks
            st.items).ball,
          (stepBall w d (st.balls.getD i default) st.blocks st.items).blocks,
          (stepBall w d (st.balls.getD i default) st.blocks st.items).items,
          st.events ++ (stepBall w d (st.balls.getD i default) st.blocks
            st.items).events⟩).blocks := hb'
    obtain ⟨m, hm, hle1, hmax1⟩ := ih _ b' hb2
    obtain ⟨a, ha, hle2, hmax2⟩ := stepBall_weakens w d _ st.blocks st.items m hm
    exact ⟨a, ha, le_trans hle1 hle2, hmax1.trans hmax2⟩

theorem substepFold_weakens (w d : ℝ) (idx : List ℕ) (l : List ℕ) :
    ∀ st : PhysOut,
      ∀ b' ∈ (l.foldl (fun st _ => substepPass w d idx st) st).blocks,
        ∃ a ∈ st.blocks, b'.hp ≤ a.hp ∧ b'.maxHp = a.maxHp := by
  induction l with
  | nil => intro st b' hb'; exact ⟨b', hb', le_refl _, rfl⟩
  | cons x t ih =>
    intro st b' hb'
    rw [List.foldl_cons] at hb'
    obtain ⟨m, hm, hle1, hmax1⟩ := ih _ b' hb'
    obtain ⟨a, ha, hle2, hmax2⟩ := substepPass_weakens w d idx st m hm
    exact ⟨a, ha, le_trans hle1 hle2, hmax1.trans hmax2⟩

theorem physicsUpdate_weakens (w dt : ℝ) (balls : List Ball)
    (blocks : List Block) (items : List Item) :
    ∀ b' ∈ (physicsUpdate w dt balls blocks items).blocks,
      ∃ a ∈ blocks, b'.hp ≤ a.hp ∧ b'.maxHp = a.maxHp := by
  simp only [physicsUpdate]
  exact substepFold_weakens w _ _ _ ⟨balls, blocks, items, []⟩

theorem explodeOne_weakens (bk : Block) (blocks : List Block) :
    ∀ b' ∈ explodeOne bk blocks,
      ∃ a ∈ blocks, b'.hp ≤ a.hp ∧ b'.maxHp = a.maxHp := by
  intro b' hb'
  unfold explodeOne at hb'
  split at hb'
  · obtain ⟨a, ha, rfl⟩ := List.mem_map.mp hb'
    refine ⟨a, ha, ?_, ?_⟩
    · unfold explodeDamage
      dsimp only
      split_ifs <;> simp <;> omega
    · unfold explodeDamage
      dsimp only
      split_ifs <;> rfl
  · exact ⟨b', hb', le_refl _, rfl⟩

theorem explodeFold_weakens (destroyed : List Block) :
    ∀ blocks : List Block,
      ∀ b' ∈ destroyed.foldl (fun acc bk => explodeOne bk acc) blocks,
        ∃ a ∈ blocks, b'.hp ≤ a.hp ∧ b'.maxHp = a.maxHp := by
  induction destroyed with
  | nil => intro blocks b' hb'; exact ⟨b', hb', le_refl _, rfl⟩
  | cons bk t ih =>
    intro blocks b' hb'
    rw [List.foldl_cons] at hb'
    obtain ⟨m, hm, hle1, hmax1⟩ := ih _ b' hb'
    obtain ⟨a, ha, hle2, hmax2⟩ := explodeOne_weakens bk blocks m hm
    exact ⟨a, ha, le_trans hle1 hle2, hmax1.trans hmax2⟩

theorem addCell_blocks_inv (d : ℕ → Draws) (n : ℕ) (acc : GameState) (col : ℕ) :
    ∀ b ∈ (addCell d n acc col).blocks, b ∈ acc.blocks ∨ BlockHpInv b := by
  intro b hb
  simp only [addCell] at hb
  split_ifs at hb
  · exact Or.inl hb
  · rcases List.mem_append.mp hb with h | h
    · exact Or.inl h
    · right
      rw [List.mem_singleton.mp h]
      unfold BlockHpInv BlockEntity.mk'
      constructor
      · exact le_refl _
      · exact le_max_left _ _
  · exact Or.inl hb

theorem addCellFold_blocks_inv (d : ℕ → Draws) (n : ℕ) (l : List ℕ) :
    ∀ acc : GameState, ∀ b ∈ (l.foldl (addCell d n) acc).blocks,
      b ∈ acc.blocks ∨ BlockHpInv b := by
  induction l with
  | nil => intro acc b hb; exact Or.inl hb
  | cons c t ih =>
    intro acc b hb
    rw [List.foldl_cons] at hb
    rcases ih _ b hb with h | h
    · exact addCell_blocks_inv d n acc c b h
    · exact Or.inr h

theorem updatePosition_hpInv (b : Block) (bw bh sx sy : ℝ) :
    BlockHpInv (b.updatePosition bw bh sx sy) ↔ BlockHpInv b := Iff.rfl

theorem addBlockRow_inv (d : ℕ → Draws) (n : ℕ) (x : GameState)
    (hx : ∀ b ∈ x.blocks, BlockHpInv b) :
    ∀ b ∈ (addBlockRow d n x).blocks, BlockHpInv b := by
  intro b hb
  unfold addBlockRow updateBlockLayout at hb
  dsimp only at hb
  obtain ⟨a, ha, rfl⟩ := List.mem_map.mp hb
  rw [updatePosition_hpInv]
  rcases addCellFold_blocks_inv d n (List.range CONSTANTS.COLS) x a ha with h | h
  · exact hx a h
  · exact h

theorem moveBlocksDown_inv (x : GameState) (hx : ∀ b ∈ x.blocks, BlockHpInv b) :
    ∀ b ∈ (moveBlocksDown x).blocks, BlockHpInv b := by
  intro b hb
  unfold moveBlocksDown updateBlockLayout at hb
  dsimp only at hb
  obtain ⟨a, ha, rfl⟩ := List.mem_map.mp hb
  rw [updatePosition_hpInv]
  obtain ⟨a2, ha2, rfl⟩ := List.mem_map.mp ha
  exact hx a2 ha2

theorem endTurnBoard_inv (d : ℕ → Draws) (n : ℕ) (s : GameState)
    (hs : ∀ b ∈ s.blocks, BlockHpInv b) :
    ∀ b ∈ (endTurnBoard d n s).blocks, BlockHpInv b := by
  intro b hb
  unfold endTurnBoard at hb
  dsimp only at hb
  refine addBlockRow_inv d n (moveBlocksDown (endTurnPrep s)) ?_ b hb
  exact moveBlocksDown_inv (endTurnPrep s) hs

theorem gameOverScan_blocks (s : GameState) : (gameOverScan s).blocks = s.blocks := by
  rw [gameOverScan_spec]

theorem endTurn_inv (d : ℕ → Draws) (n : ℕ) (s : GameState)
    (hs : ∀ b ∈ s.blocks, BlockHpInv b) :
    ∀ b ∈ (endTurn d n s).blocks, BlockHpInv b := by
  intro b hb
  unfold endTurn emitMetrics at hb
  dsimp only at hb
  rw [gameOverScan_blocks] at hb
  exact endTurnBoard_inv d n s hs b hb

/-- Each tick's resolution restores the invariant: every surviving block has
positive hp (the purge) and keeps `hp ≤ maxHp` (damage only lowers hp; fresh
row blocks spawn with `hp = maxHp ≥ 1`). -/
theorem resolveTick_inv (d : ℕ → Draws) (n : ℕ) (s : GameState)
    (hs : ∀ b ∈ s.blocks, b.hp ≤ b.maxHp) :
    ∀ b ∈ (resolveTick d n s).blocks, BlockHpInv b := by
  have hmain : ∀ b' ∈ ((s.blocks.filter (fun b => b.hp ≤ 0)).foldl
      (fun acc bk => explodeOne bk acc) s.blocks).filter (fun b => 0 < b.hp),
      BlockHpInv b' := by
    intro b' hb'
    have hmem := List.mem_of_mem_filter hb'
    have hpos : 0 < b'.hp := by
      have := List.of_mem_filter hb'
      simpa using this
    obtain ⟨a, ha, hle, hmax⟩ :=
      explodeFold_weakens (s.blocks.filter (fun b => b.hp ≤ 0)) s.blocks b' hmem
    exact ⟨hmax ▸ le_trans hle (hs a ha), by omega⟩
  intro b hb
  simp only [resolveTick] at hb
  split_ifs at hb <;>
    first
      | exact endTurn_inv d n _ (fun b2 hb2 => hmain b2 hb2) b hb
      | exact hmain b hb

/-- **C7.** Every tick preserves the block invariant: if every block starts
the tick with `hp ≤ maxHp` and `1 ≤ hp`, then after `Engine.update` every
block in the collection again satisfies both — blocks driven to `hp ≤ 0`
during the tick (by ball damage or explosion chains) are purged before the
tick ends, damage never raises hp above `maxHp`, and freshly spawned row
blocks start with `hp = maxHp ≥ 1`. -/
theorem claim_C7_block_invariant (draws : ℕ → Draws) (now : ℕ) (dt : ℝ)
    (s : GameState) (h : ∀ b ∈ s.blocks, b.hp ≤ b.maxHp ∧ 1 ≤ b.hp) :
    ∀ b ∈ (engineUpdate draws now dt s).blocks, b.hp ≤ b.maxHp ∧ 1 ≤ b.hp := by
  by_cases hph : s.phase = GamePhase.SHOOTING ∨ s.phase = GamePhase.RETURNING
  · simp only [engineUpdate, if_pos hph]
    refine fun b hb => resolveTick_inv draws now _ ?_ b hb
    intro b2 hb2
    dsimp only at hb2
    obtain ⟨a, ha, hle, hmax⟩ := physicsUpdate_weakens _ _ _ _ _ b2 hb2
    exact hmax ▸ le_trans hle (h a ha).1
  · simp only [engineUpdate, if_neg hph]
    exact h

/-- Witness for C7: a concrete state satisfying the invariant still
satisfies it after a tick. -/
theorem claim_C7_witness :
    (∀ b ∈ stateOver.blocks, b.hp ≤ b.maxHp ∧ 1 ≤ b.hp) ∧
    ∀ b ∈ (engineUpdate drawsEmpty 0 1 stateOver).blocks,
      b.hp ≤ b.maxHp ∧ 1 ≤ b.hp := by
  have hin : ∀ b ∈ stateOver.blocks, b.hp ≤ b.maxHp ∧ 1 ≤ b.hp := by
    intro b hb
    simp only [stateOver, stateGOX, List.mem_cons, List.not_mem_nil,
      or_false] at hb
    rcases hb with rfl | rfl <;> norm_num
  exact ⟨hin, claim_C7_block_invariant drawsEmpty 0 1 stateOver hin⟩

end SBB

